import Mathlib

/-!
Verification of the docling document-conversion subsystem of krypton-graph.

The Python sources under src/services/docling are shallowly embedded:
strings are Lean strings (lists of characters), pure text transforms become
Lean functions on character lists, floating-point scores become rationals,
and effectful components (filesystem probes, the external PDF converter,
WebSocket sends) are abstracted into explicit state records or function
parameters.  Regular expressions are hand-compiled into deterministic
character scanners that implement the exact backtracking behaviour of the
original pattern.  The regex class \s and the bare str.split / lstrip
whitespace sets are modelled by the ASCII whitespace characters
space, tab, newline, carriage return, vertical tab and form feed; the
sources are only ever exercised on ASCII-range whitespace.
-/

namespace Docling

/-- Whitespace characters as matched by the regex class \s (ASCII range),
also used to model str.split() and str.lstrip(). -/
def pyWs (c : Char) : Bool :=
  c = ' ' || c = '\t' || c = '\n' || c = '\r' || c = '\x0b' || c = '\x0c'

/-- Characters matched by the class [ \t] used by the per-line strips in
clean_markdown. -/
def isSpaceTab (c : Char) : Bool :=
  c = ' ' || c = '\t'

/-- Python str.split(newline): splits a character list at every newline,
keeping empty pieces, always returning at least one piece. -/
def splitNl : List Char → List (List Char)
  | [] => [[]]
  | c :: rest =>
    if c = '\n' then [] :: splitNl rest
    else
      match splitNl rest with
      | [] => [[c]]
      | l :: ls => (c :: l) :: ls

/-- Python newline.join: interleaves a newline between the pieces. -/
def joinNl : List (List Char) → List Char
  | [] => []
  | [l] => l
  | l :: l2 :: ls => l ++ '\n' :: joinNl (l2 :: ls)

/-! ## websocket_handler.ConnectionManager

The manager owns a dictionary of active connections (only the key set
matters for delivery decisions, the socket objects are abstracted away)
and a dictionary from document id to its subscriber set.  Python dicts are
association lists whose key lists are duplicate-free; sets are modelled as
duplicate-free lists where insertion is skipped for present elements
(matching set.add) and removal drops every occurrence (matching
set.discard). -/

/-- Association-list view of the document_subscribers dict. -/
abbrev Subs := List (String × List String)

/-- Dictionary lookup (first matching key). -/
def lookupDoc : Subs → String → Option (List String)
  | [], _ => none
  | (d, l) :: rest, doc => if d = doc then some l else lookupDoc rest doc

/-- Dictionary assignment: replace the value at the key in place, or append
the new entry at the end (insertion order, as in a Python dict). -/
def setDoc : Subs → String → List String → Subs
  | [], doc, l => [(doc, l)]
  | (d, v) :: rest, doc, l =>
    if d = doc then (doc, l) :: rest else (d, v) :: setDoc rest doc l

/-- Dictionary deletion of a key. -/
def delDoc : Subs → String → Subs
  | [], _ => []
  | (d, v) :: rest, doc => if d = doc then rest else (d, v) :: delDoc rest doc

/-- Python set.add: inserting an element already present leaves the set
unchanged. -/
def addSub (c : String) (l : List String) : List String :=
  if c ∈ l then l else l ++ [c]

/-- The dict keys of a subscriber table. -/
def subKeys (s : Subs) : List String := s.map Prod.fst

/-- State of websocket_handler.ConnectionManager: the keys of
active_connections and the document_subscribers table. -/
structure ConnectionManager where
  active_connections : List String
  document_subscribers : Subs
  deriving DecidableEq

/-- ConnectionManager.subscribe_to_document: create the entry if missing,
then add the client to the document's subscriber set. -/
def subscribe_to_document (m : ConnectionManager) (client document : String) :
    ConnectionManager :=
  let cur := match lookupDoc m.document_subscribers document with
    | some l => l
    | none => []
  { m with document_subscribers :=
      setDoc m.document_subscribers document (addSub client cur) }

/-- ConnectionManager.unsubscribe_from_document: discard the client from the
document's subscriber set and delete the entry when it becomes empty. -/
def unsubscribe_from_document (m : ConnectionManager) (client document : String) :
    ConnectionManager :=
  match lookupDoc m.document_subscribers document with
  | none => m
  | some l =>
    let l2 := l.filter (fun x => x ≠ client)
    if l2 = [] then
      { m with document_subscribers := delDoc m.document_subscribers document }
    else
      { m with document_subscribers := setDoc m.document_subscribers document l2 }

/-- ConnectionManager.broadcast_to_document_subscribers: the clients a
StatusEvent for the document is sent to — the members of the document's
subscriber set that are present in active_connections at send time.
(Clients whose send raises are disconnected after the loop; that pruning
does not change the set of attempted deliveries modelled here.) -/
def broadcastRecipients (m : ConnectionManager) (document : String) :
    List String :=
  match lookupDoc m.document_subscribers document with
  | none => []
  | some subs => subs.filter (fun c => c ∈ m.active_connections)

/-! ## Image persistence filenames

ImageHandler.save_image and DoclingService._extract_and_save_images build
the on-disk filename of every persisted image.  The MD5 hex digest is kept
abstract (a function from byte sequences to the 32-character hex string);
the sources slice its first eight characters. -/

/-- Filename built by ImageHandler.save_image:
document_id, the literal img, the index, the first eight hex characters of
the MD5 of the raw image bytes, and the lower-cased format. -/
def saveImageFilename (md5hex : List Nat → String) (document_id : String)
    (image_index : String) (image_data : List Nat) (format : String) : String :=
  document_id ++ "_img_" ++ image_index ++ "_"
    ++ (md5hex image_data).take 8 ++ "." ++ format.toLower

/-- Reference path returned by ImageHandler.save_image and embedded into the
markdown. -/
def saveImageRelPath (md5hex : List Nat → String) (document_id : String)
    (image_index : String) (image_data : List Nat) (format : String) : String :=
  "/uploads/images/"
    ++ saveImageFilename md5hex document_id image_index image_data format

/-- Filename built by DoclingService._extract_and_save_images for the
picture at zero-based position idx: the hash input is the UTF-8 encoding of
the picture object's string representation (passed here as reprBytes), not
the raw image bytes, and the extension is fixed to png. -/
def serviceImageFilename (md5hex : List Nat → String) (document_id : String)
    (idx : Nat) (reprBytes : List Nat) : String :=
  document_id ++ "_img_" ++ toString (idx + 1) ++ "_"
    ++ (md5hex reprBytes).take 8 ++ ".png"

/-- Relative path recorded by DoclingService._extract_and_save_images. -/
def serviceImageRelPath (md5hex : List Nat → String) (document_id : String)
    (idx : Nat) (reprBytes : List Nat) : String :=
  "/uploads/images/" ++ serviceImageFilename md5hex document_id idx reprBytes

/-- Naming convention claimed by the spec, as a filename template:
documentId, index, hash and extension joined by single separators with no
further components. -/
def claimedImageForm (document_id index hash ext : String) : String :=
  document_id ++ "_" ++ index ++ "_" ++ hash ++ "." ++ ext

/-- Filename template the code actually uses, with the literal img
component. -/
def imgPattern (document_id index hash ext : String) : String :=
  document_id ++ "_img_" ++ index ++ "_" ++ hash ++ "." ++ ext

/-- Stand-in MD5 used to evaluate the filename builders on concrete inputs
(the digest value is irrelevant to the naming shape). -/
def md5stub : List Nat → String := fun _ => "0123456789abcdef0123456789abcdef"

/-! ## PDFConverter.validate_pdf

The filesystem and the pypdf probe are abstracted into a record of
functions; pathlib suffix extraction is reproduced on the path string. -/

/-- Outcome of opening the file with pypdf.PdfReader: a successful parse
with the encryption flag and page count, a PdfReadError, or any other
exception with its message. -/
inductive PdfProbe where
  | ok (encrypted : Bool) (pages : Nat)
  | readError
  | otherError (msg : String)
  deriving DecidableEq

/-- Abstract filesystem as seen by validate_pdf: existence, st_size, and
the pypdf probe outcome for each path. -/
structure PdfFs where
  exists_file : String → Bool
  size : String → Nat
  probe : String → PdfProbe

/-- Final path component, as pathlib Path.name (text after the last
slash). -/
def lastName (p : List Char) : List Char :=
  ((p.reverse.takeWhile (fun c => c ≠ '/'))).reverse

/-- Extension of the final component, as pathlib Path.suffix: from the last
dot, provided that dot is neither the first nor the last character of the
name; otherwise empty. -/
def pathSuffixL (p : List Char) : List Char :=
  let n := lastName p
  match ((List.range n.length).filter
      (fun i => decide (n.getD i ' ' = '.'))).getLast? with
  | some i => if 0 < i ∧ i < n.length - 1 then n.drop i else []
  | none => []

/-- String-level pathlib suffix. -/
def pathSuffix (p : String) : String := String.mk (pathSuffixL p.data)

/-- Lower-cased suffix as a character list (the str.lower of the extension
check, kept at list level). -/
def pathSuffixLower (p : String) : List Char :=
  (pathSuffixL p.data).map Char.toLower

/-- PDFConverter.validate_pdf: the ordered, short-circuiting check cascade.
The outer try/except is represented by the readError and otherError probe
outcomes (exceptions raised by the pypdf open). -/
def validate_pdf (fs : PdfFs) (file_path : String) : Bool × Option String :=
  if fs.exists_file file_path = false then
    (false, some "File does not exist")
  else if pathSuffixLower file_path ≠ ".pdf".data then
    (false, some "File is not a PDF")
  else if fs.size file_path = 0 then
    (false, some "PDF file is empty")
  else if fs.size file_path > 100 * 1024 * 1024 then
    (false, some "PDF file is too large (>100MB)")
  else
    match fs.probe file_path with
    | .readError => (false, some "PDF is corrupted or unreadable")
    | .otherError m => (false, some ("Validation error: " ++ m))
    | .ok enc pages =>
      if enc then (false, some "PDF is encrypted")
      else if pages = 0 then (false, some "PDF has no pages")
      else (true, none)

/-- Filesystem on which no path exists. -/
def missingFs : PdfFs :=
  { exists_file := fun _ => false
    size := fun _ => 0
    probe := fun _ => .readError }

/-- Filesystem holding exactly one file, the zero-byte empty.pdf. -/
def emptyPdfFs : PdfFs :=
  { exists_file := fun p => p = "empty.pdf"
    size := fun _ => 0
    probe := fun _ => .readError }

/-! ## api.convert_pdf (POST /api/documents/convert)

The endpoint body is one try block; every Python exception raised inside it
— including the fastapi.HTTPException raised for a missing file, which is a
subclass of Exception — is caught by the final except clause and turned into
a failed-status ConversionResponse returned with HTTP 200.  The docling
service call and the encryption probe are abstracted into a world record;
status-tracker broadcasts are side effects irrelevant to the response body
and are not modelled here.  The request path is taken as already absolute,
so Path resolution is the identity. -/

/-- Exceptions that can traverse the endpoint's try block. -/
inductive PyExn where
  | httpExc (code : Nat) (detail : String)
  | exc (msg : String)
  deriving DecidableEq

/-- Python str(e): starlette's HTTPException renders as code, colon,
detail. -/
def pyExnStr : PyExn → String
  | .httpExc code detail => toString code ++ ": " ++ detail
  | .exc msg => msg

/-- Response body of the conversion endpoints (the free-form metadata dict
carries no verified content and is omitted). -/
structure ConversionResponse where
  documentId : String
  markdown : String
  images : List String
  status : String
  errors : List String
  deriving DecidableEq

/-- HTTP-level outcome of a FastAPI endpoint: a 200 body, or an HTTP error
produced by an HTTPException escaping the handler. -/
inductive HttpOutcome where
  | ok (body : ConversionResponse)
  | httpError (code : Nat) (detail : String)
  deriving DecidableEq

/-- World the endpoint runs against: file existence,
DoclingService.check_pdf_encryption, and the
DoclingService.convert_pdf_to_markdown call (which may itself raise). -/
structure ApiWorld where
  exists_file : String → Bool
  is_encrypted : String → Bool
  convert : String → String → Except PyExn ConversionResponse

/-- A conversion request body. -/
structure ConversionRequest where
  documentId : String
  filePath : String
  deriving DecidableEq

/-- Failed-status body produced for an encrypted PDF. -/
def encryptedResponse (documentId : String) : ConversionResponse :=
  { documentId := documentId
    markdown := ""
    images := []
    status := "failed"
    errors := ["PDF_ENCRYPTED: PDF is password protected. Please unlock before uploading."] }

/-- Body of the endpoint's try block as an exception-typed computation. -/
def convertTryBlock (w : ApiWorld) (req : ConversionRequest) :
    Except PyExn ConversionResponse :=
  if w.exists_file req.filePath = false then
    .error (.httpExc 404 ("File not found: " ++ req.filePath))
  else if w.is_encrypted req.filePath then
    .ok (encryptedResponse req.documentId)
  else
    w.convert req.filePath req.documentId

/-- api.convert_pdf: the try block with its catch-all except clause, which
converts any exception into a failed-status body returned as HTTP 200. -/
def convert_pdf (w : ApiWorld) (req : ConversionRequest) : HttpOutcome :=
  match convertTryBlock w req with
  | .ok resp => .ok resp
  | .error e =>
    .ok { documentId := req.documentId
          markdown := ""
          images := []
          status := "failed"
          errors := [pyExnStr e] }

/-- Concrete world for evaluating the endpoint: no file exists. -/
def apiWorldMissing : ApiWorld :=
  { exists_file := fun _ => false
    is_encrypted := fun _ => false
    convert := fun _ _ => .error (.exc "unreachable") }

/-- Concrete world for evaluating the endpoint: every file exists and is
encrypted. -/
def apiWorldEncrypted : ApiWorld :=
  { exists_file := fun _ => true
    is_encrypted := fun _ => true
    convert := fun _ _ => .error (.exc "unreachable") }

/-! ## markdown_formatter.clean_markdown

Steps in source order: collapse runs of three or more newlines to two;
collapse runs of two or more spaces to one; strip leading and trailing
space or tab runs on every line; insert a blank line between adjacent
heading lines. -/

/-- Pending-run collapser for re.sub of three-plus newlines to two: n is
the length of the newline run read so far. -/
def collapseNlAux : List Char → Nat → List Char
  | [], n => if n ≥ 3 then ['\n', '\n'] else List.replicate n '\n'
  | '\n' :: rest, n => collapseNlAux rest (n + 1)
  | c :: rest, n =>
    (if n ≥ 3 then ['\n', '\n'] else List.replicate n '\n')
      ++ c :: collapseNlAux rest 0

/-- Collapse every maximal run of three or more newlines to exactly two. -/
def collapseNl (l : List Char) : List Char := collapseNlAux l 0

/-- Pending-run collapser for re.sub of two-plus spaces to one. -/
def collapseSpAux : List Char → Nat → List Char
  | [], n => if n ≥ 2 then [' '] else List.replicate n ' '
  | ' ' :: rest, n => collapseSpAux rest (n + 1)
  | c :: rest, n =>
    (if n ≥ 2 then [' '] else List.replicate n ' ')
      ++ c :: collapseSpAux rest 0

/-- Collapse every maximal run of two or more spaces to one. -/
def collapseSp (l : List Char) : List Char := collapseSpAux l 0

/-- Strip the leading and trailing space-or-tab runs of one line
(the two MULTILINE re.subs of clean_markdown). -/
def stripLine (l : List Char) : List Char :=
  ((l.dropWhile isSpaceTab).reverse.dropWhile isSpaceTab).reverse

/-- Python str.startswith with a hash: the heading test of the
blank-line-insertion loop. -/
def startsHash : List Char → Bool
  | [] => false
  | c :: _ => c = '#'

/-- Blank-line insertion between adjacent heading lines; the flag is
prev_was_heading. -/
def headingSpacer : List (List Char) → Bool → List (List Char)
  | [], _ => []
  | l :: ls, prevH =>
    if startsHash l && prevH then [] :: l :: headingSpacer ls (startsHash l)
    else l :: headingSpacer ls (startsHash l)

/-- MarkdownFormatter.clean_markdown. -/
def clean_markdown (s : String) : String :=
  let step2 := collapseSp (collapseNl s.data)
  let lines := (splitNl step2).map stripLine
  String.mk (joinNl (headingSpacer lines false))

/-! ## markdown_formatter.format_lists

Per-line normalization of bullet and ordered-list items.  A line is
left-stripped; a bullet line (marker dash, star or plus followed by
whitespace) is rewritten with its indentation quantized down to an even
number of spaces, a dash marker, one space, and the tail of the stripped
line after its first two characters.  An ordered line (digits, dot,
whitespace, and a nonempty remainder as matched by the grouped regex with
its backtracking) is rewritten with quantized indentation, the digits, a
dot, one space and the matched text. -/

/-- Marker class of the bullet regex. -/
def bulletChar (c : Char) : Bool :=
  c = '-' || c = '*' || c = '+'

/-- Shared tail of the grouped heading and ordered-list regexes: the
greedy whitespace group of one or more characters followed by the nonempty
text group, where the whitespace group backtracks one character when
nothing would remain for the text group (which then captures a single
whitespace character).  Returns the text group. -/
def wsTextMatch (rest : List Char) : Option (List Char) :=
  if (rest.takeWhile pyWs).length = 0 then none
  else if rest.drop (rest.takeWhile pyWs).length ≠ [] then
    some (rest.drop (rest.takeWhile pyWs).length)
  else if 2 ≤ (rest.takeWhile pyWs).length then
    some (rest.drop ((rest.takeWhile pyWs).length - 1))
  else none

/-- Match of the anchored regex digits-dot-whitespace-text on a stripped
line: the digit group is the maximal leading digit run (nonempty), then a
literal dot, then the whitespace and text groups.  Returns the digit group
and the text group. -/
def numMatch (stripped : List Char) : Option (List Char × List Char) :=
  if (stripped.takeWhile Char.isDigit).length = 0 then none
  else
    match stripped.drop (stripped.takeWhile Char.isDigit).length with
    | c :: tail =>
      if c = '.' then
        match wsTextMatch tail with
        | some text => some (stripped.takeWhile Char.isDigit, text)
        | none => none
      else none
    | [] => none

/-- Match test of the anchored bullet regex on a stripped line: a marker
character followed by at least one whitespace character. -/
def bulletMatchTest : List Char → Bool
  | b :: w :: _ => bulletChar b && pyWs w
  | _ => false

/-- One line of MarkdownFormatter.format_lists: the bullet branch rewrites
the marker to a dash keeping the tail of the stripped line after its first
two characters; the ordered branch (when the grouped regex matches)
rewrites to digits, dot, one space and the matched text; both quantize the
indentation down to an even number of spaces. -/
def formatListLine (line : List Char) : List Char :=
  if bulletMatchTest (line.dropWhile pyWs) then
    List.replicate ((line.length - (line.dropWhile pyWs).length) / 2 * 2) ' '
      ++ '-' :: ' ' :: (line.dropWhile pyWs).drop 2
  else
    match numMatch (line.dropWhile pyWs) with
    | some (ds, text) =>
      List.replicate ((line.length - (line.dropWhile pyWs).length) / 2 * 2) ' '
        ++ ds ++ '.' :: ' ' :: text
    | none => line

/-- MarkdownFormatter.format_lists. -/
def format_lists (s : String) : String :=
  String.mk (joinNl ((splitNl s.data).map formatListLine))

/-! ## markdown_formatter.fix_heading_hierarchy -/

/-- Match of the anchored regex hashes-whitespace-title on a line: the hash
group is the maximal leading hash run (nonempty), then the whitespace and
title groups of the shared tail.  Returns the hash count and the title
group. -/
def parseHeading (line : List Char) : Option (Nat × List Char) :=
  if (line.takeWhile (fun c => c = '#')).length = 0 then none
  else
    match wsTextMatch (line.drop (line.takeWhile (fun c => c = '#')).length) with
    | some title => some ((line.takeWhile (fun c => c = '#')).length, title)
    | none => none

/-- One step of the repair loop: clamp the level against the stack top,
pop the stack to levels below the new level, push it, and rebuild the line
when it was clamped. -/
def fixHeadingStep (stack : List Nat) (line : List Char) :
    List Nat × List Char :=
  match parseHeading line with
  | none => (stack, line)
  | some (lv, title) =>
    let lv2 := match stack with
      | [] => lv
      | last :: _ => if lv > last + 1 then last + 1 else lv
    let line2 :=
      if lv2 = lv then line else List.replicate lv2 '#' ++ ' ' :: title
    (lv2 :: stack.dropWhile (fun x => lv2 ≤ x), line2)

/-- The repair loop over the lines, threading the open-heading stack. -/
def fixHeadingGo : List Nat → List (List Char) → List (List Char)
  | _, [] => []
  | st, l :: ls =>
    (fixHeadingStep st l).2 :: fixHeadingGo (fixHeadingStep st l).1 ls

/-- MarkdownFormatter.fix_heading_hierarchy. -/
def fix_heading_hierarchy (s : String) : String :=
  String.mk (joinNl (fixHeadingGo [] (splitNl s.data)))

/-- Levels of the heading lines of a document, in order (a heading line is
one matched by the hashes-whitespace-title regex). -/
def headingLevels (s : String) : List Nat :=
  (splitNl s.data).filterMap (fun l => (parseHeading l).map Prod.fst)

/-! ## markdown_formatter.add_table_of_contents -/

/-- Word characters of the regex class backslash-w (ASCII range). -/
def isWordChar (c : Char) : Bool :=
  c.isAlphanum || c = '_'

/-- Second anchor re.sub: collapse every run of whitespace or hyphens into
a single hyphen; the flag records whether the previous character belonged
to such a run. -/
def collapseAnchorAux : List Char → Bool → List Char
  | [], _ => []
  | c :: rest, inRun =>
    if pyWs c || c = '-' then
      (if inRun then [] else ['-']) ++ collapseAnchorAux rest true
    else c :: collapseAnchorAux rest false

/-- Anchor of a heading title: lower-case, drop characters that are neither
word characters nor whitespace nor hyphens, then collapse
whitespace-or-hyphen runs into single hyphens. -/
def anchorOf (title : List Char) : List Char :=
  collapseAnchorAux
    ((title.map Char.toLower).filter
      (fun c => isWordChar c || pyWs c || c = '-'))
    false

/-- TOC entry for one qualifying heading: two spaces of indent per level
above one, a dash, the title in brackets and the anchor link. -/
def tocEntry (lv : Nat) (title : List Char) : List Char :=
  List.replicate ((lv - 1) * 2) ' '
    ++ ('-' :: ' ' :: '[' :: title)
    ++ (']' :: '(' :: '#' :: anchorOf title)
    ++ [')']

/-- TOC line for a source line, when it is a heading of level at most
three. -/
def tocEntryOf (l : List Char) : Option (List Char) :=
  match parseHeading l with
  | some (lv, title) => if lv ≤ 3 then some (tocEntry lv title) else none
  | none => none

/-- Count of headings of level at most three, the TOC gating quantity. -/
def qualHeadingCount (s : String) : Nat :=
  ((splitNl s.data).filterMap tocEntryOf).length

/-- The prepended TOC text: the header line (with its own trailing
newline), the entries joined by newlines, and a blank separator line. -/
def tocText (s : String) : List Char :=
  joinNl (("## Table of Contents\n".data) :: (splitNl s.data).filterMap tocEntryOf)
    ++ ('\n' :: '\n' :: [])

/-- MarkdownFormatter.add_table_of_contents. -/
def add_table_of_contents (s : String) : String :=
  if ((splitNl s.data).filterMap tocEntryOf).length > 2 then
    String.mk (tocText s ++ s.data)
  else s

/-! ## quality_checker regex scanners

Each re.findall / re.search of quality_checker.py is hand-compiled into a
deterministic scanner implementing the pattern's backtracking behaviour.
Fuel arguments bound the recursion; a fuel of one more than the text length
is always sufficient because every step consumes at least one character. -/

/-- Counting loop over the lines of a document where the per-line predicate
also needs to know whether a further line follows (a trailing newline can
satisfy a whitespace requirement of a MULTILINE pattern). -/
def countLinesNext (p : List Char → Bool → Bool) : List (List Char) → Nat
  | [] => 0
  | [l] => if p l false then 1 else 0
  | l :: l2 :: ls =>
    (if p l true then 1 else 0) + countLinesNext p (l2 :: ls)

/-- Line-start match of the MULTILINE pattern one-to-six hashes followed by
whitespace: the maximal leading hash run has length one to six and is
followed by a whitespace character, where the line's terminating newline
(when a further line follows) also counts. -/
def headingLine16 (l : List Char) (hasNext : Bool) : Bool :=
  let h := (l.takeWhile (fun c => c = '#')).length
  if 1 ≤ h ∧ h ≤ 6 then
    match l.drop h with
    | c :: _ => pyWs c
    | [] => hasNext
  else false

/-- Match count of the heading pattern over a document (the greedy trailing
whitespace of one match never overruns the line start of the next, so the
count is per-line). -/
def countHeadings16 (md : List Char) : Nat :=
  countLinesNext headingLine16 (splitNl md)

/-- Option-valued variant of countLinesNext collecting per-line values. -/
def linesNextMap (f : List Char → Bool → Option Nat) :
    List (List Char) → List Nat
  | [] => []
  | [l] =>
    (match f l false with | some v => [v] | none => [])
  | l :: l2 :: ls =>
    (match f l true with | some v => [v] | none => [])
      ++ linesNextMap f (l2 :: ls)

/-- Levels captured by the grouped heading pattern of
_check_heading_hierarchy, in document order. -/
def headingLevels16 (md : List Char) : List Nat :=
  linesNextMap
    (fun l hasNext =>
      if headingLine16 l hasNext then
        some (l.takeWhile (fun c => c = '#')).length
      else none)
    (splitNl md)

/-- Boolean check that a level sequence never steps up by more than one. -/
def chainLe : List Nat → Bool
  | [] => true
  | [_] => true
  | a :: b :: r => decide (b ≤ a + 1) && chainLe (b :: r)

/-- Scanner for an anchored MULTILINE pattern: tries the matcher at every
line-start position, counts non-overlapping matches, and tracks whether the
current position follows a newline.  The matcher returns the remaining text
and whether the last consumed character was a newline. -/
def anchoredScan (matchAt : List Char → Option (List Char × Bool)) :
    Nat → List Char → Bool → Nat
  | 0, _, _ => 0
  | _ + 1, [], _ => 0
  | fuel + 1, c :: rest, atStart =>
    if atStart then
      match matchAt (c :: rest) with
      | some (rem, endNl) => 1 + anchoredScan matchAt fuel rem endNl
      | none => anchoredScan matchAt fuel rest (c = '\n')
    else anchoredScan matchAt fuel rest (c = '\n')

/-- Match of whitespace-run, bullet marker, whitespace-run-of-one-or-more at
one position (the greedy leading whitespace class backtracks only onto
whitespace characters, so the marker must sit right after the maximal
whitespace run). -/
def bulletMatchAt (cs : List Char) : Option (List Char × Bool) :=
  let w := cs.takeWhile pyWs
  match cs.drop w.length with
  | b :: tail =>
    if bulletChar b then
      let r := tail.takeWhile pyWs
      if r.length = 0 then none
      else some (tail.drop r.length, r.getLast? = some '\n')
    else none
  | [] => none

/-- Match of whitespace-run, digit-run, dot, whitespace-run-of-one-or-more
at one position. -/
def numListMatchAt (cs : List Char) : Option (List Char × Bool) :=
  let w := cs.takeWhile pyWs
  let afterW := cs.drop w.length
  let ds := afterW.takeWhile Char.isDigit
  if ds.length = 0 then none
  else
    match afterW.drop ds.length with
    | '.' :: tail =>
      let r := tail.takeWhile pyWs
      if r.length = 0 then none
      else some (tail.drop r.length, r.getLast? = some '\n')
    | _ => none

/-- Match count of the MULTILINE bullet-item pattern. -/
def countBulletMatches (md : List Char) : Nat :=
  anchoredScan bulletMatchAt (md.length + 1) md true

/-- Match count of the MULTILINE ordered-item pattern. -/
def countNumListMatches (md : List Char) : Nat :=
  anchoredScan numListMatchAt (md.length + 1) md true

/-- Scanner for an unanchored pattern: tries the matcher at every position
and counts non-overlapping matches. -/
def plainScan (matchAt : List Char → Option (List Char)) :
    Nat → List Char → Nat
  | 0, _ => 0
  | _ + 1, [] => 0
  | fuel + 1, c :: rest =>
    match matchAt (c :: rest) with
    | some rem => 1 + plainScan matchAt fuel rem
    | none => plainScan matchAt fuel rest

/-- Character class of the table separator row pattern: dash, colon,
whitespace or pipe. -/
def sepClass (c : Char) : Bool :=
  c = '-' || c = ':' || pyWs c || c = '|'

/-- Index of the last pipe at position one or later inside a separator-class
run (the greedy one-or-more class backtracks to the last pipe it
swallowed). -/
def lastPipeIdx (run : List Char) : Option Nat :=
  ((List.range run.length).filter
    (fun i => decide (1 ≤ i) && decide (run.getD i ' ' = '|'))).getLast?

/-- Match of the table pattern — pipe, anything, pipe, anything, newline,
pipe, separator-class run, pipe — at one position: the dots cannot cross
the newline, so the first line must hold a second pipe, and the next line
must open with a pipe followed by at least one separator-class character
and a further pipe. -/
def tableMatchAt : List Char → Option (List Char)
  | '|' :: t =>
    let line1 := t.takeWhile (fun c => c ≠ '\n')
    if line1.contains '|' then
      match t.drop line1.length with
      | '\n' :: l2 =>
        match l2 with
        | '|' :: u =>
          let run := u.takeWhile sepClass
          match lastPipeIdx run with
          | some i => some (u.drop (i + 1))
          | none => none
        | _ => none
      | _ => none
    else none
  | _ => none

/-- Match count of the markdown-table pattern. -/
def tableMatchCount (md : List Char) : Nat :=
  plainScan tableMatchAt (md.length + 1) md

/-- Character class complement of pipe and newline. -/
def notPipeNl (c : Char) : Bool :=
  c ≠ '|' && c ≠ '\n'

/-- Match of the broken-table pattern — pipe, exactly one further
pipe-delimited cell, rest of line, newline, not followed by a pipe — at one
position; the negative lookahead consumes nothing. -/
def brokenMatchAt : List Char → Option (List Char)
  | '|' :: t =>
    match t.dropWhile notPipeNl with
    | '|' :: u =>
      match u.dropWhile notPipeNl with
      | '\n' :: v =>
        match v with
        | '|' :: _ => none
        | _ => some v
      | _ => none
    | _ => none
  | _ => none

/-- Match count of the broken-table pattern. -/
def brokenTableCount (md : List Char) : Nat :=
  plainScan brokenMatchAt (md.length + 1) md

/-- Count of maximal runs of characters satisfying a predicate (the match
count of a one-or-more character-class pattern); the flag records being
inside a run. -/
def runCountAux (p : Char → Bool) : List Char → Bool → Nat
  | [], _ => 0
  | c :: rest, inRun =>
    if p c then (if inRun then 0 else 1) + runCountAux p rest true
    else runCountAux p rest false

/-- Python len(markdown.split()): the number of maximal non-whitespace
runs. -/
def wordCount (md : List Char) : Nat :=
  runCountAux (fun c => !pyWs c) md false

/-- Match count of the garbled-character class pattern (the three mojibake
characters of the source). -/
def garbledCount (md : List Char) : Nat :=
  runCountAux (fun c => c = 'ï' || c = '¿' || c = '½') md false

/-- Existence of a run of at least n consecutive characters satisfying a
predicate; the counter is the current run length. -/
def hasRunGe (p : Char → Bool) (n : Nat) : List Char → Nat → Bool
  | [], _ => false
  | c :: rest, cnt =>
    if p c then
      if n ≤ cnt + 1 then true else hasRunGe p n rest (cnt + 1)
    else hasRunGe p n rest 0

/-- Python markdown.count of three consecutive newlines: non-overlapping
occurrences scanned left to right. -/
def countNlNlNl : List Char → Nat
  | '\n' :: '\n' :: '\n' :: rest => 1 + countNlNlNl rest
  | _ :: rest => countNlNlNl rest
  | [] => 0

/-- Existence of a character outside the ASCII range. -/
def hasNonAscii (md : List Char) : Bool :=
  md.any (fun c => 127 < c.toNat)

/-- Number of lines longer than 500 characters. -/
def longLineCount (md : List Char) : Nat :=
  ((splitNl md).filter (fun l => decide (500 < l.length))).length

/-- QualityChecker.detect_conversion_issues: the six independently
triggered heuristics, in source order. -/
def detect_conversion_issues (s : String) : List String :=
  let md := s.data
  (if hasNonAscii md && decide (10 < garbledCount md) then
      ["Encoding issues detected (" ++ toString (garbledCount md)
        ++ " garbled characters)"]
    else [])
  ++ (if hasRunGe (fun c => c = '.') 10 md 0
        || hasRunGe (fun c => c = '_') 10 md 0 then
      ["Excessive repeated characters (possible OCR error)"]
    else [])
  ++ (if 0 < brokenTableCount md then
      ["Potentially broken tables detected ("
        ++ toString (brokenTableCount md) ++ ")"]
    else [])
  ++ (if wordCount md < 10 then
      ["Very low word count - possible extraction failure"]
    else [])
  ++ (if 5 < longLineCount md then
      ["Many excessively long lines - possible formatting issues"]
    else [])
  ++ (if 10 < countNlNlNl md then ["Excessive blank lines"] else [])

/-- Prefix test of a literal pattern. -/
def leadMatch : List Char → List Char → Bool
  | [], _ => true
  | _ :: _, [] => false
  | p :: ps, c :: cs => p = c && leadMatch ps cs

/-- Remainder after the first occurrence of a literal pattern, scanning
left to right. -/
def afterFirst (pat : List Char) : List Char → Option (List Char)
  | [] => if leadMatch pat [] then some [] else none
  | c :: rest =>
    if leadMatch pat (c :: rest) then some ((c :: rest).drop pat.length)
    else afterFirst pat rest

/-- Per-line existence of an image reference — bang, bracket, lazy text,
bracket-paren, lazy text, paren — all on one line since the lazy dots
cannot cross a newline. -/
def hasImageLine (l : List Char) : Bool :=
  match afterFirst ['!', '['] l with
  | some r1 =>
    match afterFirst [']', '('] r1 with
    | some r2 => r2.contains ')'
    | none => false
  | none => false

/-- Per-line existence of a link reference. -/
def hasLinkLine (l : List Char) : Bool :=
  match afterFirst ['['] l with
  | some r1 =>
    match afterFirst [']', '('] r1 with
    | some r2 => r2.contains ')'
    | none => false
  | none => false

/-- The boolean flags of QualityChecker.check_structure_preservation. -/
structure StructureChecks where
  has_headings : Bool
  has_paragraphs : Bool
  has_lists : Bool
  has_tables : Bool
  has_images : Bool
  has_links : Bool
  proper_hierarchy : Bool
  deriving DecidableEq

/-- QualityChecker.check_structure_preservation. -/
def check_structure_preservation (s : String) : StructureChecks :=
  let md := s.data
  { has_headings := decide (0 < countHeadings16 md)
    has_paragraphs := hasRunGe (fun c => c = '\n') 2 md 0
    has_lists := decide (0 < countBulletMatches md)
      || decide (0 < countNumListMatches md)
    has_tables := decide (0 < tableMatchCount md)
    has_images := (splitNl md).any hasImageLine
    has_links := (splitNl md).any hasLinkLine
    proper_hierarchy := chainLe (headingLevels16 md) }

/-! ## quality_checker scores -/

/-- Expected element counts handed to calculate_accuracy_score (a Python
dict with optional integer entries). -/
structure ExpectedElements where
  headings : Option Int
  tables : Option Int
  lists : Option Int
  min_words : Option Int

/-- Per-dimension accuracy contribution: observed over expected, scaled to
one hundred and capped there. -/
def elemScore (count : Nat) (expected : Int) : ℚ :=
  min 100 ((count : ℚ) / (expected : ℚ) * 100)

/-- Contribution of one optional expectation to the scores list: present
and positive contributes its element score, anything else contributes
nothing. -/
def optScore (count : Nat) (o : Option Int) : List ℚ :=
  match o with
  | some exp => if 0 < exp then [elemScore count exp] else []
  | none => []

/-- Combined bullet and ordered list-item count used for the lists
dimension. -/
def listElementCount (md : List Char) : Nat :=
  countBulletMatches md + countNumListMatches md

/-- The scores list assembled by calculate_accuracy_score. -/
def accuracyScores (s : String) (e : ExpectedElements) : List ℚ :=
  optScore (countHeadings16 s.data) e.headings
    ++ optScore (tableMatchCount s.data) e.tables
    ++ optScore (listElementCount s.data) e.lists
    ++ optScore (wordCount s.data) e.min_words

/-- QualityChecker.calculate_accuracy_score: zero for empty markdown, the
mean of the per-dimension scores when any expectation applies, and the
word-count fallback otherwise. -/
def calculate_accuracy_score (s : String) (e : ExpectedElements) : ℚ :=
  if s.data = [] then 0
  else if accuracyScores s e = [] then
    if wordCount s.data < 10 then 0
    else if wordCount s.data < 100 then 50
    else 75
  else (accuracyScores s e).sum / ((accuracyScores s e).length : ℚ)

/-- Python len(markdown.encode()): the total UTF-8 byte length of the
text. -/
def utf8Len (l : List Char) : Nat :=
  (l.map Char.utf8Size).sum

/-- QualityChecker.calculate_completeness_score: bucket the ratio of the
UTF-8 byte size of the markdown to the source size into the fixed score
bands. -/
def calculate_completeness_score (s : String) (source_size : Nat) :
    ℚ × String :=
  if source_size = 0 then (0, "Source file is empty")
  else
    if (utf8Len s.data : ℚ) / (source_size : ℚ) < 1 / 100 then
      (10, "Very poor extraction")
    else if (utf8Len s.data : ℚ) / (source_size : ℚ) < 1 / 20 then
      (30, "Poor extraction")
    else if (utf8Len s.data : ℚ) / (source_size : ℚ) < 1 / 10 then
      (50, "Partial extraction")
    else if (utf8Len s.data : ℚ) / (source_size : ℚ) < 3 / 10 then
      (70, "Good extraction")
    else if (utf8Len s.data : ℚ) / (source_size : ℚ) < 1 then
      (85, "Very good extraction")
    else (95, "Excellent extraction")

/-- The report dictionary of QualityChecker.generate_quality_report. -/
structure QualityReport where
  overall_score : ℚ
  completeness_score : ℚ
  completeness_assessment : String
  accuracy_score : ℚ
  structure_preservation : StructureChecks
  detected_issues : List String
  processing_time : ℚ
  word_count : Nat
  character_count : Nat
  line_count : Nat

/-- QualityChecker.generate_quality_report: completeness against the
source size, accuracy with the fixed hundred-word expectation, and their
unweighted mean as the overall score. -/
def generate_quality_report (s : String) (source_size : Nat)
    (processing_time : ℚ) : QualityReport :=
  let c := calculate_completeness_score s source_size
  let a := calculate_accuracy_score s
    { headings := none, tables := none, lists := none, min_words := some 100 }
  { overall_score := (c.1 + a) / 2
    completeness_score := c.1
    completeness_assessment := c.2
    accuracy_score := a
    structure_preservation := check_structure_preservation s
    detected_issues := detect_conversion_issues s
    processing_time := processing_time
    word_count := wordCount s.data
    character_count := s.data.length
    line_count := (splitNl s.data).length }

/-! ## Shared lemmas for the score bounds -/

/-- Every contribution of one expectation dimension lies in the zero to one
hundred band: the element score is capped at one hundred and built from a
nonnegative ratio. -/
theorem mem_optScore {x : ℚ} {cnt : Nat} {o : Option Int}
    (h : x ∈ optScore cnt o) : 0 ≤ x ∧ x ≤ 100 := by
  cases o with
  | none => simp [optScore] at h
  | some exp =>
    simp only [optScore] at h
    split at h
    · rename_i hexp
      simp only [List.mem_singleton] at h
      subst h
      have hexpQ : (0 : ℚ) < (exp : ℚ) := by exact_mod_cast hexp
      refine ⟨le_min (by norm_num) ?_, min_le_left _ _⟩
      have : (0 : ℚ) ≤ (cnt : ℚ) / (exp : ℚ) :=
        div_nonneg (by positivity) hexpQ.le
      nlinarith
    · simp at h

/-- Every member of the assembled scores list lies in the band. -/
theorem mem_accuracyScores {x : ℚ} {s : String} {e : ExpectedElements}
    (h : x ∈ accuracyScores s e) : 0 ≤ x ∧ x ≤ 100 := by
  simp only [accuracyScores, List.mem_append] at h
  rcases h with ((h | h) | h) | h <;> exact mem_optScore h

/-- The arithmetic mean of a nonempty list of band members stays in the
band. -/
theorem mean_bounds (l : List ℚ) (hne : l ≠ [])
    (hb : ∀ x ∈ l, 0 ≤ x ∧ x ≤ 100) :
    0 ≤ l.sum / (l.length : ℚ) ∧ l.sum / (l.length : ℚ) ≤ 100 := by
  have hlen : (0 : ℚ) < (l.length : ℚ) := by
    exact_mod_cast List.length_pos.mpr hne
  constructor
  · exact div_nonneg (List.sum_nonneg fun x hx => (hb x hx).1) hlen.le
  · rw [div_le_iff₀ hlen]
    calc l.sum ≤ l.length • (100 : ℚ) :=
          List.sum_le_card_nsmul l 100 (fun x hx => (hb x hx).2)
      _ = 100 * (l.length : ℚ) := by rw [nsmul_eq_mul]; ring

/-- Accuracy scores always land in the band. -/
theorem accuracy_score_bounds (s : String) (e : ExpectedElements) :
    0 ≤ calculate_accuracy_score s e ∧ calculate_accuracy_score s e ≤ 100 := by
  unfold calculate_accuracy_score
  split
  · norm_num
  · split
    · split_ifs <;> norm_num
    · exact mean_bounds _ (by assumption) (fun x hx => mem_accuracyScores hx)

/-- Completeness scores always land in the band (they are drawn from fixed
bucket constants). -/
theorem completeness_score_bounds (s : String) (n : Nat) :
    0 ≤ (calculate_completeness_score s n).1
      ∧ (calculate_completeness_score s n).1 ≤ 100 := by
  simp only [calculate_completeness_score]
  split_ifs <;> norm_num

/-- C9 counterexample: with an arbitrary digest function the filename built
by ImageHandler.save_image for document doc, index 1, format PNG is not of
the claimed documentId-index-hash-extension form — the code inserts a
literal img component between the document id and the index. -/
theorem C9_filename_counterexample :
    saveImageFilename md5stub "doc" "1" [] "PNG"
      ≠ claimedImageForm "doc" "1" ((md5stub []).take 8) "png" := by
  decide

/-- C9 (amended): every persisted image filename follows the
documentId img index hash extension template: save_image lower-cases the
requested format and hashes the raw bytes, _extract_and_save_images fixes
png and hashes the string representation of the picture object; both
reference paths prepend the uploads directory to exactly that filename. -/
theorem C9_filename_shape (md5hex : List Nat → String)
    (doc idx : String) (data reprBytes : List Nat) (fmt : String) (n : Nat) :
    saveImageFilename md5hex doc idx data fmt
        = imgPattern doc idx ((md5hex data).take 8) fmt.toLower
      ∧ saveImageRelPath md5hex doc idx data fmt
        = "/uploads/images/" ++ saveImageFilename md5hex doc idx data fmt
      ∧ serviceImageFilename md5hex doc n reprBytes
        = imgPattern doc (toString (n + 1)) ((md5hex reprBytes).take 8) "png"
      ∧ serviceImageRelPath md5hex doc n reprBytes
        = "/uploads/images/" ++ serviceImageFilename md5hex doc n reprBytes := by
  refine ⟨rfl, rfl, ?_, rfl⟩
  have hpng : ("." ++ "png" : String) = ".png" := rfl
  rw [serviceImageFilename, imgPattern]
  simp only [String.append_assoc]
  rw [hpng]

/-- C1 counterexample: empty markdown against a one-byte source gets
completeness score ten (the very-poor bucket), not zero as claimed. -/
theorem C1_empty_completeness_counterexample :
    (calculate_completeness_score "" 1).1 = 10
      ∧ (calculate_completeness_score "" 1).1 ≠ 0 := by
  have h10 : (calculate_completeness_score "" 1).1 = 10 := by
    have hd : ("" : String).data = [] := rfl
    simp only [calculate_completeness_score, hd, utf8Len, List.map_nil,
      List.sum_nil, Nat.cast_zero, Nat.cast_one, zero_div]
    norm_num
  exact ⟨h10, by rw [h10]; norm_num⟩

/-- C1 (amended): completenessScore, accuracyScore and overallScore lie in
the zero to one hundred band for all inputs; empty markdown gets accuracy
zero, and its completeness is zero exactly when the source size is zero —
for a positive source size empty markdown lands in the very-poor bucket
with score ten. -/
theorem C1_score_bounds (s : String) (e : ExpectedElements) (n : Nat)
    (t : ℚ) :
    (0 ≤ calculate_accuracy_score s e ∧ calculate_accuracy_score s e ≤ 100)
      ∧ (0 ≤ (calculate_completeness_score s n).1
          ∧ (calculate_completeness_score s n).1 ≤ 100)
      ∧ (0 ≤ (generate_quality_report s n t).overall_score
          ∧ (generate_quality_report s n t).overall_score ≤ 100)
      ∧ calculate_accuracy_score "" e = 0
      ∧ (calculate_completeness_score "" 0).1 = 0
      ∧ (calculate_completeness_score "" (n + 1)).1 = 10 := by
  refine ⟨accuracy_score_bounds s e, completeness_score_bounds s n, ?_, ?_, rfl, ?_⟩
  · have hc := completeness_score_bounds s n
    have ha := accuracy_score_bounds s
      { headings := none, tables := none, lists := none, min_words := some 100 }
    simp only [generate_quality_report]
    constructor
    · linarith [hc.1, ha.1]
    · linarith [hc.2, ha.2]
  · rfl
  · have hd : ("" : String).data = [] := rfl
    simp only [calculate_completeness_score, hd, utf8Len, List.map_nil,
      List.sum_nil, Nat.cast_zero, zero_div]
    rw [if_neg (Nat.succ_ne_zero n)]
    norm_num

/-- The quality-check scenario input: twenty dots after the word Text, then
six newlines and the word More. -/
def scenarioMd : String := "Text....................\n\n\n\n\n\nMore"

/-- C8 counterexample: the scenario input does trigger the OCR-artifact
warning, but not the blank-line warning — six newlines hold only two
non-overlapping triple-newline occurrences, far below the threshold of
more than ten. -/
theorem C8_issues_counterexample :
    "Excessive repeated characters (possible OCR error)"
        ∈ detect_conversion_issues scenarioMd
      ∧ "Excessive blank lines" ∉ detect_conversion_issues scenarioMd := by
  constructor <;> decide

/-- C8 (amended): the scenario input yields exactly the OCR-artifact
warning and the low-word-count warning; no blank-line warning is emitted
because the count of triple-newline occurrences is two, not above ten. -/
theorem C8_issues_scenario :
    detect_conversion_issues scenarioMd
        = ["Excessive repeated characters (possible OCR error)",
           "Very low word count - possible extraction failure"]
      ∧ countNlNlNl scenarioMd.data = 2 := by
  constructor <;> decide

/-! ## Dictionary lemmas for the subscription hub -/

/-- Assignment followed by lookup at the same key yields the assigned
value. -/
theorem lookupDoc_setDoc_self (s : Subs) (d : String) (l : List String) :
    lookupDoc (setDoc s d l) d = some l := by
  induction s with
  | nil => simp [setDoc, lookupDoc]
  | cons hd tl ih =>
    obtain ⟨k, v⟩ := hd
    by_cases h : k = d
    · simp [setDoc, h, lookupDoc]
    · simp [setDoc, h, lookupDoc, ih]

/-- Two assignments at the same key collapse to the second. -/
theorem setDoc_setDoc (s : Subs) (d : String) (l l2 : List String) :
    setDoc (setDoc s d l) d l2 = setDoc s d l2 := by
  induction s with
  | nil => simp [setDoc]
  | cons hd tl ih =>
    obtain ⟨k, v⟩ := hd
    by_cases h : k = d
    · simp [setDoc, h]
    · simp [setDoc, h, ih]

/-- Lookup misses keys that are absent. -/
theorem lookupDoc_eq_none_of_not_mem (s : Subs) (d : String)
    (h : d ∉ subKeys s) : lookupDoc s d = none := by
  induction s with
  | nil => rfl
  | cons hd tl ih =>
    obtain ⟨k, v⟩ := hd
    simp only [subKeys, List.map_cons, List.mem_cons, not_or] at h
    have hk : ¬k = d := fun hkd => h.1 hkd.symm
    simp only [lookupDoc, if_neg hk]
    exact ih (by simpa [subKeys] using h.2)

/-- Deleting a key from a duplicate-free dictionary makes its lookup
miss. -/
theorem lookupDoc_delDoc_self (s : Subs) (d : String)
    (hnd : (subKeys s).Nodup) : lookupDoc (delDoc s d) d = none := by
  induction s with
  | nil => rfl
  | cons hd tl ih =>
    obtain ⟨k, v⟩ := hd
    simp only [subKeys, List.map_cons, List.nodup_cons] at hnd
    by_cases h : k = d
    · subst h
      simp only [delDoc, if_pos rfl]
      exact lookupDoc_eq_none_of_not_mem tl k
        (by simpa [subKeys] using hnd.1)
    · simp [delDoc, h, lookupDoc, ih hnd.2]

/-- Adding an element makes it a member. -/
theorem mem_addSub (c : String) (l : List String) : c ∈ addSub c l := by
  by_cases h : c ∈ l <;> simp [addSub, h]

/-- Adding a member leaves the set unchanged. -/
theorem addSub_of_mem {c : String} {l : List String} (h : c ∈ l) :
    addSub c l = l := by
  simp [addSub, h]

/-- C3: a StatusEvent broadcast for a document reaches a connection only if
it is in the document's subscriber set and in the active-connection table
at send time; and once a client unsubscribes from the document, no further
broadcast for it reaches that client (under the dictionary invariant that
the subscriber table's keys are duplicate-free). -/
theorem C3_broadcast_isolation (m : ConnectionManager) (doc c : String) :
    (c ∈ broadcastRecipients m doc →
        (∃ l, lookupDoc m.document_subscribers doc = some l ∧ c ∈ l)
          ∧ c ∈ m.active_connections)
      ∧ ((subKeys m.document_subscribers).Nodup →
          c ∉ broadcastRecipients (unsubscribe_from_document m c doc) doc) := by
  constructor
  · intro hc
    unfold broadcastRecipients at hc
    cases h : lookupDoc m.document_subscribers doc with
    | none => rw [h] at hc; simp at hc
    | some subs =>
      rw [h] at hc
      simp only [List.mem_filter, decide_eq_true_eq] at hc
      exact ⟨⟨subs, rfl, hc.1⟩, hc.2⟩
  · intro hnd hc
    cases h : lookupDoc m.document_subscribers doc with
    | none =>
      have he : unsubscribe_from_document m c doc = m := by
        unfold unsubscribe_from_document
        rw [h]
      rw [he] at hc
      unfold broadcastRecipients at hc
      rw [h] at hc
      simp at hc
    | some l =>
      by_cases h2 : l.filter (fun x => x ≠ c) = []
      · have he : (unsubscribe_from_document m c doc).document_subscribers
            = delDoc m.document_subscribers doc := by
          unfold unsubscribe_from_document
          rw [h]
          dsimp only
          rw [if_pos h2]
        unfold broadcastRecipients at hc
        rw [he, lookupDoc_delDoc_self _ _ hnd] at hc
        simp at hc
      · have he : (unsubscribe_from_document m c doc).document_subscribers
            = setDoc m.document_subscribers doc
                (l.filter (fun x => x ≠ c)) := by
          unfold unsubscribe_from_document
          rw [h]
          dsimp only
          rw [if_neg h2]
        unfold broadcastRecipients at hc
        rw [he, lookupDoc_setDoc_self] at hc
        simp at hc

/-- C10: subscriber membership is a set, not a count — subscribing the same
client twice leaves the hub state literally unchanged from a single
subscribe; one unsubscribe removes the client from the document's set
entirely; and removing the last subscriber deletes the document's entry
from the table (under the duplicate-free-keys dictionary invariant). -/
theorem C10_subscription_set (m : ConnectionManager) (c d : String)
    (hnd : (subKeys m.document_subscribers).Nodup) :
    subscribe_to_document (subscribe_to_document m c d) c d
        = subscribe_to_document m c d
      ∧ (∀ l,
          lookupDoc (unsubscribe_from_document m c d).document_subscribers d
              = some l → c ∉ l)
      ∧ (∀ l, lookupDoc m.document_subscribers d = some l →
          l.filter (fun x => x ≠ c) = [] →
          lookupDoc (unsubscribe_from_document m c d).document_subscribers d
              = none) := by
  refine ⟨?_, ?_, ?_⟩
  · unfold subscribe_to_document
    simp only [lookupDoc_setDoc_self]
    rw [addSub_of_mem (mem_addSub c _), setDoc_setDoc]
  · intro l hl
    cases h : lookupDoc m.document_subscribers d with
    | none =>
      have he : unsubscribe_from_document m c d = m := by
        unfold unsubscribe_from_document
        rw [h]
      rw [he, h] at hl
      cases hl
    | some l0 =>
      by_cases h2 : l0.filter (fun x => x ≠ c) = []
      · have he : (unsubscribe_from_document m c d).document_subscribers
            = delDoc m.document_subscribers d := by
          unfold unsubscribe_from_document
          rw [h]
          dsimp only
          rw [if_pos h2]
        rw [he, lookupDoc_delDoc_self _ _ hnd] at hl
        cases hl
      · have he : (unsubscribe_from_document m c d).document_subscribers
            = setDoc m.document_subscribers d
                (l0.filter (fun x => x ≠ c)) := by
          unfold unsubscribe_from_document
          rw [h]
          dsimp only
          rw [if_neg h2]
        rw [he, lookupDoc_setDoc_self] at hl
        cases hl
        intro hcl
        simp at hcl
  · intro l hl h2
    have he : (unsubscribe_from_document m c d).document_subscribers
        = delDoc m.document_subscribers d := by
      unfold unsubscribe_from_document
      rw [hl]
      dsimp only
      rw [if_pos h2]
    rw [he]
    exact lookupDoc_delDoc_self _ _ hnd

/-- Concrete hub state for the witnesses: one active connection
subscribed to one document. -/
def mgr0 : ConnectionManager :=
  { active_connections := ["c1"]
    document_subscribers := [("D", ["c1"])] }

/-- Witness for C3 at the concrete hub state. -/
theorem C3_broadcast_isolation_witness :
    "c1" ∉ broadcastRecipients (unsubscribe_from_document mgr0 "c1" "D") "D" :=
  (C3_broadcast_isolation mgr0 "D" "c1").2 (by decide)

/-- Witness for C10 at the concrete hub state: removing the last
subscriber deletes the document's entry. -/
theorem C10_subscription_set_witness :
    lookupDoc (unsubscribe_from_document mgr0 "c1" "D").document_subscribers
        "D" = none :=
  (C10_subscription_set mgr0 "c1" "D" (by decide)).2.2 ["c1"] (by decide)
    (by decide)

/-- C5: validate_pdf performs its checks in order, short-circuiting on the
first failure with that failure's reason string, and the two spec
scenarios hold: a missing path yields the does-not-exist reason and a
zero-byte pdf yields the empty-file reason. -/
theorem C5_validate_cascade (fs : PdfFs) (p : String) :
    (fs.exists_file p = false →
        validate_pdf fs p = (false, some "File does not exist"))
      ∧ (fs.exists_file p = true → pathSuffixLower p ≠ ".pdf".data →
          validate_pdf fs p = (false, some "File is not a PDF"))
      ∧ (fs.exists_file p = true → pathSuffixLower p = ".pdf".data →
          fs.size p = 0 →
          validate_pdf fs p = (false, some "PDF file is empty"))
      ∧ (fs.exists_file p = true → pathSuffixLower p = ".pdf".data →
          fs.size p ≠ 0 → 100 * 1024 * 1024 < fs.size p →
          validate_pdf fs p = (false, some "PDF file is too large (>100MB)"))
      ∧ (fs.exists_file p = true → pathSuffixLower p = ".pdf".data →
          fs.size p ≠ 0 → fs.size p ≤ 100 * 1024 * 1024 →
          fs.probe p = .readError →
          validate_pdf fs p = (false, some "PDF is corrupted or unreadable"))
      ∧ (∀ msg, fs.exists_file p = true → pathSuffixLower p = ".pdf".data →
          fs.size p ≠ 0 → fs.size p ≤ 100 * 1024 * 1024 →
          fs.probe p = .otherError msg →
          validate_pdf fs p = (false, some ("Validation error: " ++ msg)))
      ∧ (∀ enc pages, fs.exists_file p = true →
          pathSuffixLower p = ".pdf".data →
          fs.size p ≠ 0 → fs.size p ≤ 100 * 1024 * 1024 →
          fs.probe p = .ok enc pages →
          validate_pdf fs p =
            (if enc then (false, some "PDF is encrypted")
             else if pages = 0 then (false, some "PDF has no pages")
             else (true, none)))
      ∧ validate_pdf missingFs "/tmp/missing.pdf"
          = (false, some "File does not exist")
      ∧ validate_pdf emptyPdfFs "empty.pdf"
          = (false, some "PDF file is empty") := by
  refine ⟨?_, ?_, ?_, ?_, ?_, ?_, ?_, by decide, by decide⟩
  · intro h1
    simp [validate_pdf, h1]
  · intro h1 h2
    simp [validate_pdf, h1, h2]
  · intro h1 h2 h3
    simp [validate_pdf, h1, h2, h3]
  · intro h1 h2 h3 h4
    simp [validate_pdf, h1, h2, h3, h4]
  · intro h1 h2 h3 h4 h5
    simp [validate_pdf, h1, h2, h3, Nat.not_lt.mpr h4, h5]
  · intro msg h1 h2 h3 h4 h5
    simp [validate_pdf, h1, h2, h3, Nat.not_lt.mpr h4, h5]
  · intro enc pages h1 h2 h3 h4 h5
    simp [validate_pdf, h1, h2, h3, Nat.not_lt.mpr h4, h5]

/-- Witness for C5: the cascade applied to the missing-file world. -/
theorem C5_validate_cascade_witness :
    validate_pdf missingFs "/tmp/missing.pdf"
      = (false, some "File does not exist") :=
  (C5_validate_cascade missingFs "/tmp/missing.pdf").1 rfl

/-- C6: the convert endpoint never surfaces an HTTP error — the blanket
except clause catches even the HTTPException the handler itself raises for
a missing file, so a nonexistent path yields an HTTP 200 failed-status body
whose error text carries the 404 detail, contradicting the documented
HTTP 404; an encrypted PDF yields the well-formed failed-status body as
documented. -/
theorem C6_convert_endpoint (w : ApiWorld) (req : ConversionRequest) :
    (∀ code detail, convert_pdf w req ≠ HttpOutcome.httpError code detail)
      ∧ (w.exists_file req.filePath = false →
          convert_pdf w req =
            .ok { documentId := req.documentId
                  markdown := ""
                  images := []
                  status := "failed"
                  errors := ["404: " ++ ("File not found: " ++ req.filePath)] })
      ∧ (w.exists_file req.filePath = true →
          w.is_encrypted req.filePath = true →
          convert_pdf w req = .ok (encryptedResponse req.documentId))
      ∧ (encryptedResponse req.documentId).status = "failed" := by
  refine ⟨?_, ?_, ?_, rfl⟩
  · intro code detail
    cases h : convertTryBlock w req <;> simp [convert_pdf, h]
  · intro h1
    simp only [convert_pdf, convertTryBlock, h1, if_pos]
    rfl
  · intro h1 h2
    simp [convert_pdf, convertTryBlock, h1, h2]

/-- Witness for C6 at two concrete worlds: the missing-file request comes
back as an HTTP 200 failed body carrying the 404 text, and the encrypted
request comes back as the failed-status encrypted body. -/
theorem C6_convert_endpoint_witness :
    convert_pdf apiWorldMissing
        { documentId := "d1", filePath := "/tmp/missing.pdf" }
        = .ok { documentId := "d1"
                markdown := ""
                images := []
                status := "failed"
                errors := ["404: " ++ ("File not found: " ++ "/tmp/missing.pdf")] }
      ∧ convert_pdf apiWorldEncrypted
          { documentId := "d1", filePath := "/enc.pdf" }
          = .ok (encryptedResponse "d1") :=
  ⟨(C6_convert_endpoint apiWorldMissing
      { documentId := "d1", filePath := "/tmp/missing.pdf" }).2.1 rfl,
   (C6_convert_endpoint apiWorldEncrypted
      { documentId := "d1", filePath := "/enc.pdf" }).2.2.1 rfl rfl⟩

/-! ## Split and join round-trip lemmas -/

/-- Splitting always yields at least one piece. -/
theorem splitNl_ne_nil : ∀ l : List Char, splitNl l ≠ []
  | [] => by simp [splitNl]
  | c :: rest => by
    rw [splitNl]
    by_cases h : c = '\n'
    · simp [h]
    · rw [if_neg h]
      cases hs : splitNl rest <;> simp

/-- Splitting a newline-free text yields that text as the only piece. -/
theorem splitNl_of_no_nl : ∀ l : List Char, '\n' ∉ l → splitNl l = [l]
  | [], _ => rfl
  | c :: rest, h => by
    simp only [List.mem_cons, not_or] at h
    rw [splitNl, if_neg (Ne.symm h.1), splitNl_of_no_nl rest h.2]

/-- Splitting peels off a newline-free prefix at its terminating
newline. -/
theorem splitNl_append : ∀ l rest : List Char, '\n' ∉ l →
    splitNl (l ++ '\n' :: rest) = l :: splitNl rest
  | [], rest, _ => by rw [List.nil_append, splitNl, if_pos rfl]
  | c :: t, rest, h => by
    simp only [List.mem_cons, not_or] at h
    rw [List.cons_append, splitNl, if_neg (Ne.symm h.1),
      splitNl_append t rest h.2]

/-- Splitting inverts joining on nonempty lists of newline-free lines. -/
theorem splitNl_joinNl : ∀ ls : List (List Char), ls ≠ [] →
    (∀ l ∈ ls, '\n' ∉ l) → splitNl (joinNl ls) = ls
  | [], h, _ => absurd rfl h
  | [l], _, h => by
    rw [joinNl, splitNl_of_no_nl l (h l (List.mem_singleton_self l))]
  | l :: l2 :: ls, _, h => by
    rw [joinNl, splitNl_append l _ (h l (List.mem_cons_self _ _)),
      splitNl_joinNl (l2 :: ls) (by simp)
        (fun x hx => h x (List.mem_cons_of_mem l hx))]

/-- No piece of a split contains a newline. -/
theorem no_nl_splitNl : ∀ cs : List Char, ∀ l ∈ splitNl cs, '\n' ∉ l
  | [], l, hl => by
    simp only [splitNl, List.mem_singleton] at hl
    subst hl
    simp
  | c :: rest, l, hl => by
    rw [splitNl] at hl
    by_cases h : c = '\n'
    · rw [if_pos h] at hl
      rcases List.mem_cons.mp hl with rfl | hl2
      · simp
      · exact no_nl_splitNl rest l hl2
    · rw [if_neg h] at hl
      cases hs : splitNl rest with
      | nil => exact absurd hs (splitNl_ne_nil rest)
      | cons l0 ls0 =>
        rw [hs] at hl
        have hl0 : l0 ∈ splitNl rest := by
          rw [hs]; exact List.mem_cons_self l0 ls0
        rcases List.mem_cons.mp hl with rfl | hl2
        · intro hmem
          rcases List.mem_cons.mp hmem with heq | hmem2
          · exact h heq.symm
          · exact no_nl_splitNl rest l0 hl0 hmem2
        · have : l ∈ splitNl rest := by
            rw [hs]; exact List.mem_cons_of_mem l0 hl2
          exact no_nl_splitNl rest l this

/-! ## C7: TOC gating -/

/-- C7: add_table_of_contents prepends the generated TOC exactly when the
count of headings of level at most three exceeds two (in which case the
result differs from the input), and returns the content unchanged
otherwise. -/
theorem C7_toc_gating (s : String) :
    (2 < qualHeadingCount s →
        add_table_of_contents s = String.mk (tocText s ++ s.data)
          ∧ add_table_of_contents s ≠ s)
      ∧ (qualHeadingCount s ≤ 2 → add_table_of_contents s = s) := by
  constructor
  · intro h
    have h2 : ((splitNl s.data).filterMap tocEntryOf).length > 2 := h
    constructor
    · unfold add_table_of_contents
      rw [if_pos h2]
    · intro heq
      have hd : tocText s ++ s.data = s.data := by
        have := congrArg String.data heq
        rw [show (add_table_of_contents s).data
            = tocText s ++ s.data by
          unfold add_table_of_contents
          rw [if_pos h2]] at this
        exact this
      have hlen := congrArg List.length hd
      rw [List.length_append] at hlen
      have htoc : 2 ≤ (tocText s).length := by
        unfold tocText
        rw [List.length_append]
        simp
      omega
  · intro h
    have h2 : ¬((splitNl s.data).filterMap tocEntryOf).length > 2 :=
      Nat.not_lt.mpr h
    unfold add_table_of_contents
    rw [if_neg h2]

/-- Witness for C7 at two concrete documents: three qualifying headings
trigger the TOC, two do not. -/
theorem C7_toc_gating_witness :
    (2 < qualHeadingCount "# a\n## b\n### c\ntext"
        ∧ add_table_of_contents "# a\n## b\n### c\ntext"
            ≠ "# a\n## b\n### c\ntext")
      ∧ (qualHeadingCount "# a\n## b\ntext" ≤ 2
        ∧ add_table_of_contents "# a\n## b\ntext" = "# a\n## b\ntext") :=
  ⟨⟨by decide, ((C7_toc_gating "# a\n## b\n### c\ntext").1 (by decide)).2⟩,
   ⟨by decide, (C7_toc_gating "# a\n## b\ntext").2 (by decide)⟩⟩

/-- C4 counterexample: clean_markdown is not idempotent.  A line holding
only a space separates two newline pairs, so the first pass does not
collapse them; stripping that line then leaves four consecutive newlines,
which only a second pass collapses. -/
theorem C4_clean_markdown_counterexample :
    clean_markdown (clean_markdown "a\n\n \n\nb")
      ≠ clean_markdown "a\n\n \n\nb" := by
  decide

/-! ## Matcher lemmas for the list-formatting idempotence -/

/-- Dropping the length of the matched prefix is dropping while the
predicate holds. -/
theorem drop_takeWhile_length (p : Char → Bool) : ∀ l : List Char,
    l.drop (l.takeWhile p).length = l.dropWhile p
  | [] => rfl
  | c :: t => by
    by_cases h : p c
    · simp [List.takeWhile_cons, List.dropWhile_cons, h,
        drop_takeWhile_length p t]
    · simp [List.takeWhile_cons, List.dropWhile_cons, h]

/-- The head surviving a dropWhile fails the predicate. -/
theorem head_dropWhile_false (p : Char → Bool) : ∀ {l : List Char}
    {c : Char} {r : List Char}, l.dropWhile p = c :: r → p c = false := by
  intro l
  induction l with
  | nil => intro c r h; cases h
  | cons a t ih =>
    intro c r h
    by_cases ha : p a
    · rw [List.dropWhile_cons, if_pos ha] at h
      exact ih h
    · rw [List.dropWhile_cons, if_neg ha] at h
      injection h with h1 _
      subst h1
      exact Bool.eq_false_iff.mpr ha

/-- Elimination form of the shared whitespace-text tail matcher: the
whitespace group is nonempty; the text group either starts with a
non-whitespace character (the usual branch), or is the single final
whitespace character produced by the one-step backtracking; and the text
group draws its characters from the matched tail. -/
theorem wsTextMatch_some_elim {rest text : List Char}
    (h : wsTextMatch rest = some text) :
    (rest.takeWhile pyWs).length ≠ 0
      ∧ ((∃ c t2, text = c :: t2 ∧ pyWs c = false)
          ∨ (∃ v, text = [v] ∧ pyWs v = true))
      ∧ ∀ a ∈ text, a ∈ rest := by
  unfold wsTextMatch at h
  by_cases h0 : (rest.takeWhile pyWs).length = 0
  · rw [if_pos h0] at h; cases h
  · rw [if_neg h0] at h
    by_cases h1 : rest.drop (rest.takeWhile pyWs).length ≠ []
    · rw [if_pos h1] at h
      injection h with h2
      subst h2
      refine ⟨h0, ?_, fun a ha => List.mem_of_mem_drop ha⟩
      left
      rw [drop_takeWhile_length] at h1 ⊢
      cases hdw : rest.dropWhile pyWs with
      | nil => exact absurd hdw h1
      | cons c t2 => exact ⟨c, t2, rfl, head_dropWhile_false pyWs hdw⟩
    · rw [if_neg h1] at h
      by_cases h2 : 2 ≤ (rest.takeWhile pyWs).length
      · rw [if_pos h2] at h
        injection h with h3
        subst h3
        push_neg at h1
        have hle : rest.length ≤ (rest.takeWhile pyWs).length := by
          by_contra hlt
          push_neg at hlt
          have hne : rest.drop (rest.takeWhile pyWs).length ≠ [] := by
            intro hnil
            have := List.drop_eq_nil_iff_le.mp hnil
            omega
          exact hne h1
        have hgt : (rest.takeWhile pyWs).length ≤ rest.length :=
          (List.takeWhile_sublist pyWs).length_le
        have heq : (rest.takeWhile pyWs).length = rest.length := by omega
        have htw : rest.takeWhile pyWs = rest :=
          (List.takeWhile_prefix pyWs).eq_of_length heq
        have hlen1 : (rest.drop ((rest.takeWhile pyWs).length - 1)).length
            = 1 := by
          rw [List.length_drop]
          omega
        refine ⟨h0, ?_, fun a ha => List.mem_of_mem_drop ha⟩
        right
        cases hdr : rest.drop ((rest.takeWhile pyWs).length - 1) with
        | nil => rw [hdr] at hlen1; cases hlen1
        | cons v t2 =>
          rw [hdr] at hlen1
          simp only [List.length_cons, Nat.add_eq_zero] at hlen1
          have ht2 : t2 = [] := List.length_eq_zero.mp (by omega)
          subst ht2
          refine ⟨v, rfl, ?_⟩
          have hv : v ∈ rest := by
            have : v ∈ rest.drop ((rest.takeWhile pyWs).length - 1) := by
              rw [hdr]; exact List.mem_cons_self v []
            exact List.mem_of_mem_drop this
          rw [← htw] at hv
          exact List.mem_takeWhile_imp hv
      · rw [if_neg h2] at h; cases h

/-- The matched text group, prefixed with one space, matches again with
the same text group — the core of the rewrite-stability of the formatter
branches. -/
theorem wsTextMatch_reconstruct {rest text : List Char}
    (h : wsTextMatch rest = some text) :
    wsTextMatch (' ' :: text) = some text := by
  rcases (wsTextMatch_some_elim h).2.1 with ⟨c, t2, rfl, hc⟩ | ⟨v, rfl, hv⟩
  · have htw : (' ' :: c :: t2).takeWhile pyWs = [' '] := by
      rw [List.takeWhile_cons, if_pos (by decide), List.takeWhile_cons,
        if_neg (by simp [hc])]
    unfold wsTextMatch
    rw [htw]
    simp
  · have htw : (' ' :: [v]).takeWhile pyWs = [' ', v] := by
      rw [List.takeWhile_cons, if_pos (by decide), List.takeWhile_cons,
        if_pos hv, List.takeWhile_nil]
    unfold wsTextMatch
    rw [htw]
    simp

/-- Elimination form of the ordered-list matcher: the digit group is the
maximal nonempty leading digit run, followed by a literal dot and a
matching whitespace-text tail. -/
theorem numMatch_some_elim {st ds text : List Char}
    (h : numMatch st = some (ds, text)) :
    ds = st.takeWhile Char.isDigit ∧ ds ≠ [] ∧
      ∃ tail, st.drop ds.length = '.' :: tail
        ∧ wsTextMatch tail = some text := by
  unfold numMatch at h
  split at h
  · cases h
  · rename_i h0
    split at h
    · rename_i c tail hd
      split at h
      · rename_i hc
        subst hc
        split at h
        · rename_i t htext
          injection h with h2
          obtain ⟨rfl, rfl⟩ := Prod.mk.inj h2
          exact ⟨rfl, fun hnil => h0 (by rw [hnil]; rfl), tail, hd, htext⟩
        · cases h
      · cases h
    · cases h

/-- Digits are not whitespace. -/
theorem pyWs_false_of_isDigit {c : Char} (h : c.isDigit = true) :
    pyWs c = false := by
  cases hw : pyWs c
  · rfl
  · exfalso
    simp only [pyWs, Bool.or_eq_true, decide_eq_true_eq] at hw
    rcases hw with ((((h1 | h1) | h1) | h1) | h1) | h1 <;> subst h1 <;>
      exact absurd h (by decide)

/-- Digits are not bullet markers. -/
theorem bulletChar_false_of_isDigit {c : Char} (h : c.isDigit = true) :
    bulletChar c = false := by
  cases hw : bulletChar c
  · rfl
  · exfalso
    simp only [bulletChar, Bool.or_eq_true, decide_eq_true_eq] at hw
    rcases hw with (h1 | h1) | h1 <;> subst h1 <;> exact absurd h (by decide)

/-- The digit-run matcher ignores everything from the dot on. -/
theorem takeWhile_isDigit_append (ds t : List Char)
    (hds : ∀ c ∈ ds, c.isDigit = true) :
    (ds ++ '.' :: t).takeWhile Char.isDigit = ds := by
  induction ds with
  | nil => rw [List.nil_append, List.takeWhile_cons, if_neg (by decide)]
  | cons d rest ih =>
    rw [List.cons_append, List.takeWhile_cons,
      if_pos (hds d (List.mem_cons_self d rest)),
      ih (fun c hc => hds c (List.mem_cons_of_mem d hc))]

/-- A rebuilt ordered-list line (digits, dot, one space, text) matches
again with the same groups. -/
theorem numMatch_rebuilt {st ds text : List Char}
    (h : numMatch st = some (ds, text)) :
    numMatch (ds ++ '.' :: ' ' :: text) = some (ds, text) := by
  obtain ⟨hds, hne, tail, hdrop, hws⟩ := numMatch_some_elim h
  have hdig : ∀ c ∈ ds, c.isDigit = true := by
    intro c hc
    rw [hds] at hc
    exact List.mem_takeWhile_imp hc
  have htk := takeWhile_isDigit_append ds (' ' :: text) hdig
  have hdk : (ds ++ '.' :: ' ' :: text).drop ds.length = '.' :: ' ' :: text :=
    List.drop_left _ _
  have hne0 : ¬ds.length = 0 := fun h0 => hne (List.length_eq_zero.mp h0)
  unfold numMatch
  rw [htk, if_neg hne0, hdk]
  simp [wsTextMatch_reconstruct hws]

/-- Leading spaces are stripped down to the first non-whitespace
character. -/
theorem dropWhile_replicate_space {c : Char} (n : Nat) (t : List Char)
    (hc : pyWs c = false) :
    (List.replicate n ' ' ++ c :: t).dropWhile pyWs = c :: t := by
  induction n with
  | zero =>
    rw [List.replicate_zero, List.nil_append, List.dropWhile_cons,
      if_neg (by simp [hc])]
  | succ k ih =>
    rw [List.replicate_succ, List.cons_append, List.dropWhile_cons,
      if_pos (by decide)]
    exact ih

/-- A non-marker head fails the bullet test. -/
theorem bulletMatchTest_cons_false {b : Char} (hb : bulletChar b = false)
    (x : List Char) : bulletMatchTest (b :: x) = false := by
  cases x with
  | nil => rfl
  | cons w r => simp [bulletMatchTest, hb]

/-- One line of format_lists is idempotent: a rewritten bullet or ordered
item matches its own branch again and is rewritten to itself, and an
untouched line stays untouched. -/
theorem formatListLine_idem (l : List Char) :
    formatListLine (formatListLine l) = formatListLine l := by
  by_cases hb : bulletMatchTest (l.dropWhile pyWs) = true
  · have hfl : formatListLine l =
        List.replicate ((l.length - (l.dropWhile pyWs).length) / 2 * 2) ' '
          ++ '-' :: ' ' :: (l.dropWhile pyWs).drop 2 := by
      unfold formatListLine
      rw [if_pos hb]
    set e := (l.length - (l.dropWhile pyWs).length) / 2 * 2 with he
    set R := (l.dropWhile pyWs).drop 2 with hR
    have hdw : (formatListLine l).dropWhile pyWs = '-' :: ' ' :: R := by
      rw [hfl]
      exact dropWhile_replicate_space _ _ (by decide)
    have hbt : bulletMatchTest ((formatListLine l).dropWhile pyWs) = true := by
      rw [hdw]
      rfl
    have hlen : (formatListLine l).length
        - ((formatListLine l).dropWhile pyWs).length = e := by
      rw [hdw, hfl]
      simp only [List.length_append, List.length_replicate, List.length_cons]
      omega
    rw [formatListLine, if_pos hbt, hlen, hdw]
    show List.replicate (e / 2 * 2) ' ' ++ '-' :: ' ' :: R = formatListLine l
    rw [show e / 2 * 2 = e from by omega, ← hfl]
  · cases hnm : numMatch (l.dropWhile pyWs) with
    | none =>
      have hfl : formatListLine l = l := by
        unfold formatListLine
        rw [if_neg hb, hnm]
      rw [hfl, hfl]
    | some p =>
      obtain ⟨ds, text⟩ := p
      have hfl : formatListLine l =
          List.replicate ((l.length - (l.dropWhile pyWs).length) / 2 * 2) ' '
            ++ ds ++ '.' :: ' ' :: text := by
        unfold formatListLine
        rw [if_neg hb, hnm]
      set e := (l.length - (l.dropWhile pyWs).length) / 2 * 2 with he
      obtain ⟨hds, hdne, tail, hdrop, hws⟩ := numMatch_some_elim hnm
      obtain ⟨d, ds2, rfl⟩ : ∃ d ds2, ds = d :: ds2 := by
        cases ds with
        | nil => exact absurd rfl hdne
        | cons d ds2 => exact ⟨d, ds2, rfl⟩
      have hdig : d.isDigit = true := by
        have hmem : d ∈ (l.dropWhile pyWs).takeWhile Char.isDigit := by
          rw [← hds]
          exact List.mem_cons_self d ds2
        exact List.mem_takeWhile_imp hmem
      have hdw2 : (formatListLine l).dropWhile pyWs
          = (d :: ds2) ++ '.' :: ' ' :: text := by
        rw [hfl]
        have hassoc : List.replicate e ' ' ++ (d :: ds2) ++ '.' :: ' ' :: text
            = List.replicate e ' ' ++ d :: (ds2 ++ '.' :: ' ' :: text) := by
          simp
        rw [hassoc,
          dropWhile_replicate_space _ _ (pyWs_false_of_isDigit hdig)]
        simp
      have hbt2 : ¬bulletMatchTest ((formatListLine l).dropWhile pyWs)
          = true := by
        rw [hdw2, List.cons_append,
          bulletMatchTest_cons_false (bulletChar_false_of_isDigit hdig)]
        simp
      have hnm2 : numMatch ((formatListLine l).dropWhile pyWs)
          = some (d :: ds2, text) := by
        rw [hdw2]
        exact numMatch_rebuilt hnm
      have hlen2 : (formatListLine l).length
          - ((formatListLine l).dropWhile pyWs).length = e := by
        rw [hdw2, hfl]
        simp only [List.length_append, List.length_replicate,
          List.length_cons]
        omega
      rw [formatListLine, if_neg hbt2, hlen2, hnm2]
      show List.replicate (e / 2 * 2) ' ' ++ (d :: ds2) ++ '.' :: ' ' :: text
          = formatListLine l
      rw [show e / 2 * 2 = e from by omega, ← hfl]

/-- A formatted line holds no newline when the input line holds none: the
rewritten output is built from spaces, the marker characters and
characters of the input line. -/
theorem formatListLine_no_nl {l : List Char} (h : '\n' ∉ l) :
    '\n' ∉ formatListLine l := by
  have hsub : ∀ a ∈ l.dropWhile pyWs, a ∈ l :=
    fun a ha => (List.dropWhile_sublist pyWs).mem ha
  unfold formatListLine
  split
  · intro hmem
    simp only [List.mem_append, List.mem_replicate, List.mem_cons] at hmem
    rcases hmem with ⟨_, h1⟩ | h1 | h1 | h1
    · exact absurd h1 (by decide)
    · exact absurd h1 (by decide)
    · exact absurd h1 (by decide)
    · exact h (hsub _ (List.mem_of_mem_drop h1))
  · split
    · rename_i ds text hnm
      obtain ⟨hds, _, tail, hdrop, hws⟩ := numMatch_some_elim hnm
      intro hmem
      simp only [List.mem_append, List.mem_replicate, List.mem_cons] at hmem
      rcases hmem with (⟨_, h1⟩ | h1) | h1 | h1 | h1
      · exact absurd h1 (by decide)
      · rw [hds] at h1
        exact h (hsub _ ((List.takeWhile_sublist Char.isDigit).mem h1))
      · exact absurd h1 (by decide)
      · exact absurd h1 (by decide)
      · have h2 : '\n' ∈ tail := (wsTextMatch_some_elim hws).2.2 _ h1
        have h3 : '\n' ∈ '.' :: tail := List.mem_cons_of_mem _ h2
        rw [← hdrop] at h3
        exact h (hsub _ (List.mem_of_mem_drop h3))
    · exact h

/-- C4 (amended): format_lists is idempotent for every input string;
clean_markdown is not (see the counterexample), because stripping a
whitespace-only line can create a newline run that only a further pass
would collapse. -/
theorem C4_format_lists_idempotent (s : String) :
    format_lists (format_lists s) = format_lists s := by
  unfold format_lists
  congr 1
  have hlines : ∀ l ∈ (splitNl s.data).map formatListLine, '\n' ∉ l := by
    intro l hl
    rcases List.mem_map.mp hl with ⟨l0, hl0, rfl⟩
    exact formatListLine_no_nl (no_nl_splitNl _ _ hl0)
  have hne : (splitNl s.data).map formatListLine ≠ [] := by
    intro hneq
    exact splitNl_ne_nil s.data (List.map_eq_nil.mp hneq)
  show joinNl ((splitNl
      (joinNl ((splitNl s.data).map formatListLine))).map formatListLine)
    = joinNl ((splitNl s.data).map formatListLine)
  rw [splitNl_joinNl _ hne hlines, List.map_map]
  exact congrArg joinNl
    (List.map_congr_left fun l _ => formatListLine_idem l)

/-! ## C2: the heading-hierarchy clamp -/

/-- Elimination form of the heading matcher: the level is the length of
the nonempty maximal leading hash run, and the remainder matches the
whitespace-text tail. -/
theorem parseHeading_some_elim {l : List Char} {lv : Nat} {t : List Char}
    (h : parseHeading l = some (lv, t)) :
    lv = (l.takeWhile (fun c => c = '#')).length ∧ lv ≠ 0 ∧
      wsTextMatch (l.drop lv) = some t := by
  unfold parseHeading at h
  split at h
  · cases h
  · rename_i h0
    split at h
    · rename_i title htitle
      injection h with h2
      obtain ⟨rfl, rfl⟩ := Prod.mk.inj h2
      exact ⟨rfl, h0, htitle⟩
    · cases h

/-- The title characters come from the matched line. -/
theorem parseHeading_title_mem {l : List Char} {lv : Nat} {t : List Char}
    (h : parseHeading l = some (lv, t)) : ∀ a ∈ t, a ∈ l := by
  obtain ⟨_, _, hws⟩ := parseHeading_some_elim h
  intro a ha
  exact List.mem_of_mem_drop ((wsTextMatch_some_elim hws).2.2 a ha)

/-- The maximal hash run of a rebuilt heading line is exactly its hash
block. -/
theorem takeWhile_hash_replicate (k : Nat) (t : List Char) :
    (List.replicate k '#' ++ ' ' :: t).takeWhile (fun c => c = '#')
      = List.replicate k '#' := by
  induction k with
  | zero =>
    rw [List.replicate_zero, List.nil_append, List.takeWhile_cons,
      if_neg (by decide)]
  | succ n ih =>
    rw [List.replicate_succ, List.cons_append, List.takeWhile_cons,
      if_pos (by decide), ih]

/-- A clamped heading line rebuilt as hashes, one space and the original
title parses again, at the clamped level and with the same title. -/
theorem parseHeading_rebuilt {l : List Char} {lv : Nat} {t : List Char}
    (k : Nat) (hk : k ≠ 0) (h : parseHeading l = some (lv, t)) :
    parseHeading (List.replicate k '#' ++ ' ' :: t) = some (k, t) := by
  obtain ⟨_, _, hws⟩ := parseHeading_some_elim h
  have hdk : (List.replicate k '#' ++ ' ' :: t).drop k = ' ' :: t := by
    have h2 := List.drop_left (List.replicate k '#') (' ' :: t)
    rwa [List.length_replicate] at h2
  unfold parseHeading
  rw [takeWhile_hash_replicate, List.length_replicate, if_neg hk, hdk,
    wsTextMatch_reconstruct hws]

/-- A non-heading line passes through the repair step untouched. -/
theorem fixHeadingStep_none {st : List Nat} {line : List Char}
    (h : parseHeading line = none) :
    fixHeadingStep st line = (st, line) := by
  unfold fixHeadingStep
  rw [h]

/-- A heading processed against an empty stack keeps its level and line
and becomes the only open level. -/
theorem fixHeadingStep_nil {line : List Char} {lv : Nat} {t : List Char}
    (h : parseHeading line = some (lv, t)) :
    fixHeadingStep [] line = ([lv], line) := by
  unfold fixHeadingStep
  rw [h]
  simp

/-- A heading processed against a nonempty stack is clamped to one more
than the top level, the stack is popped to levels below the result and the
result pushed, and the emitted line parses at the clamped level. -/
theorem fixHeadingStep_cons (p : Nat) (stl : List Nat) {line : List Char}
    {lv : Nat} {t : List Char} (h : parseHeading line = some (lv, t)) :
    ∃ line2,
      fixHeadingStep (p :: stl) line
          = ((if lv > p + 1 then p + 1 else lv)
              :: (p :: stl).dropWhile
                (fun x => (if lv > p + 1 then p + 1 else lv) ≤ x),
            line2)
        ∧ parseHeading line2
            = some ((if lv > p + 1 then p + 1 else lv), t) := by
  by_cases hgt : lv > p + 1
  · refine ⟨List.replicate (p + 1) '#' ++ ' ' :: t, ?_, ?_⟩
    · unfold fixHeadingStep
      rw [h]
      dsimp only
      rw [if_pos hgt, if_neg (by omega : ¬p + 1 = lv)]
    · rw [if_pos hgt]
      exact parseHeading_rebuilt (p + 1) (Nat.succ_ne_zero p) h
  · refine ⟨line, ?_, ?_⟩
    · unfold fixHeadingStep
      rw [h]
      dsimp only
      rw [if_neg hgt, if_pos rfl]
    · rw [if_neg hgt]
      exact h

/-- The repair step never introduces a newline into a line. -/
theorem fixHeadingStep_no_nl {st : List Nat} {line : List Char}
    (h : '\n' ∉ line) : '\n' ∉ (fixHeadingStep st line).2 := by
  unfold fixHeadingStep
  cases hp : parseHeading line with
  | none => exact h
  | some pr =>
    obtain ⟨lv, t⟩ := pr
    dsimp only
    split
    · exact h
    · intro hmem
      simp only [List.mem_append, List.mem_replicate, List.mem_cons] at hmem
      rcases hmem with ⟨_, h1⟩ | h1 | h1
      · exact absurd h1 (by decide)
      · exact absurd h1 (by decide)
      · exact h (parseHeading_title_mem hp _ h1)

/-- Heading levels of a list of lines, in order. -/
def levelsOfLines (ls : List (List Char)) : List Nat :=
  ls.filterMap (fun l => (parseHeading l).map Prod.fst)

/-- Non-heading lines contribute no level. -/
theorem levelsOfLines_cons_none {l : List Char} {ls : List (List Char)}
    (h : parseHeading l = none) :
    levelsOfLines (l :: ls) = levelsOfLines ls := by
  simp [levelsOfLines, List.filterMap_cons, h]

/-- Heading lines contribute their level. -/
theorem levelsOfLines_cons_some {l : List Char} {lv : Nat} {t : List Char}
    {ls : List (List Char)} (h : parseHeading l = some (lv, t)) :
    levelsOfLines (l :: ls) = lv :: levelsOfLines ls := by
  simp [levelsOfLines, List.filterMap_cons, h]

/-- Core invariant of the repair loop: starting from a stack whose top is
the last emitted level, the emitted heading levels never step up by more
than one. -/
theorem chain_fixGo : ∀ (lines : List (List Char)) (st : List Nat) (p : Nat),
    st.head? = some p →
    List.Chain' (fun a b => b ≤ a + 1)
      (p :: levelsOfLines (fixHeadingGo st lines))
  | [], _, p, _ => by simp [fixHeadingGo, levelsOfLines]
  | line :: ls, st, p, hp => by
    cases st with
    | nil => cases hp
    | cons q stl =>
      injection hp with hq
      subst hq
      cases hpl : parseHeading line with
      | none =>
        rw [fixHeadingGo, fixHeadingStep_none hpl]
        dsimp only
        rw [levelsOfLines_cons_none hpl]
        exact chain_fixGo ls (q :: stl) q rfl
      | some pr =>
        obtain ⟨lv, t⟩ := pr
        obtain ⟨line2, hstep, hparse2⟩ := fixHeadingStep_cons q stl hpl
        rw [fixHeadingGo, hstep]
        dsimp only
        rw [levelsOfLines_cons_some hparse2, List.chain'_cons]
        constructor
        · split <;> omega
        · exact chain_fixGo ls _ _ rfl

/-- The repair loop started on an empty stack emits heading levels that
never step up by more than one. -/
theorem chain_fixGo_nil : ∀ lines : List (List Char),
    List.Chain' (fun a b => b ≤ a + 1)
      (levelsOfLines (fixHeadingGo [] lines))
  | [] => by simp [fixHeadingGo, levelsOfLines]
  | line :: ls => by
    cases hpl : parseHeading line with
    | none =>
      rw [fixHeadingGo, fixHeadingStep_none hpl]
      dsimp only
      rw [levelsOfLines_cons_none hpl]
      exact chain_fixGo_nil ls
    | some pr =>
      obtain ⟨lv, t⟩ := pr
      rw [fixHeadingGo, fixHeadingStep_nil hpl]
      dsimp only
      rw [levelsOfLines_cons_some hpl]
      exact chain_fixGo ls [lv] lv rfl

/-- The repair loop emits newline-free lines from newline-free lines. -/
theorem fixHeadingGo_no_nl : ∀ (lines : List (List Char)) (st : List Nat),
    (∀ l ∈ lines, '\n' ∉ l) → ∀ l ∈ fixHeadingGo st lines, '\n' ∉ l
  | [], _, _ => by simp [fixHeadingGo]
  | line :: ls, st, h => by
    rw [fixHeadingGo]
    intro l hl
    rcases List.mem_cons.mp hl with rfl | hl2
    · exact fixHeadingStep_no_nl (h line (List.mem_cons_self _ _))
    · exact fixHeadingGo_no_nl ls _
        (fun x hx => h x (List.mem_cons_of_mem _ hx)) l hl2

/-- The repair loop emits one line per input line. -/
theorem fixHeadingGo_ne_nil {st : List Nat} {lines : List (List Char)}
    (h : lines ≠ []) : fixHeadingGo st lines ≠ [] := by
  cases lines with
  | nil => exact absurd rfl h
  | cons l ls => rw [fixHeadingGo]; simp

/-- C2: in the output of fix_heading_hierarchy, consecutive heading levels
never skip a level — each heading's level is at most one more than the
previous heading's level, which is the level at the top of the open-heading
stack when it is processed. -/
theorem C2_heading_clamp (s : String) :
    List.Chain' (fun a b => b ≤ a + 1)
      (headingLevels (fix_heading_hierarchy s)) := by
  show List.Chain' (fun a b => b ≤ a + 1)
    (levelsOfLines (splitNl (joinNl (fixHeadingGo [] (splitNl s.data)))))
  rw [splitNl_joinNl _ (fixHeadingGo_ne_nil (splitNl_ne_nil s.data))
    (fixHeadingGo_no_nl _ _ (no_nl_splitNl s.data))]
  exact chain_fixGo_nil _

end Docling
